import Mathlib

/-!
Verification of the voice-activated meeting scheduler bot
(`src/services/whisper.ts`, `src/services/gpt-voice-completions.ts`).

The embedding models:
* the per-user voice-activity segmenter that lives in `startRecording`'s
  `decoder.on('data')` handler together with `finalizeRecording`,
* the silence trimmer `trimSilence`,
* the dialogue layer `getMeetingTimesByVoice`, the context-update logic of
  `processAndTranscribe` and `handleTextMessage`, and the session clearing
  functions `clearConversationContext` / `endConversationSession`,
* the retry loop of `transcribeAudio`.

External services (OpenAI transcription/completion, Discord, ffmpeg) are
modelled as oracle parameters; machine floating point arithmetic on
durations and RMS values is modelled exactly over `ℚ`.
-/

set_option maxRecDepth 4000

namespace SchedulerBot

/-! ## Voice activity segmenter (`startRecording` handler, `finalizeRecording`) -/

/-- `minDurationMs = 300` from `whisper.ts`. -/
def minDurationMs : ℚ := 300

/-- `PROCESSING_COOLDOWN_MS = 5000` from `whisper.ts`. -/
def PROCESSING_COOLDOWN_MS : ℕ := 5000

/-- `silenceThreshold = 2000` (ms of silence to stop recording) from
`startRecording`. -/
def silenceThreshold : ℕ := 2000

/-- A decoded PCM chunk is a list of signed 16-bit samples (the source reads
`chunk.readInt16LE(i)` for `i += 2` over the byte buffer). -/
abbrev Chunk := List ℤ

/-- Byte length of the accumulated buffer list: each sample is two bytes
(`buf.length` in the source counts bytes). -/
def byteLength (buffer : List Chunk) : ℕ :=
  (buffer.map (fun b => 2 * b.length)).sum

/-- The duration computed by the streaming silence-threshold check in
`startRecording`: `(totalLength / (48000 * 2 * 2)) * 1000`. -/
def streamDurationMs (totalLength : ℕ) : ℚ :=
  ((totalLength : ℚ) / (48000 * 2 * 2)) * 1000

/-- The duration computed inside `finalizeRecording`:
`(totalLength / (48000 * 2 * 2)) * 100`. -/
def finalizeDurationMs (totalLength : ℕ) : ℚ :=
  ((totalLength : ℚ) / (48000 * 2 * 2)) * 100

/-- `hasSignificantAudio`: average absolute sample magnitude above the
threshold `100`.  The average is `sum / sampleCount` (the source divides the
byte length by 2); an empty chunk yields `NaN > 100 = false` in JS, and `0/0
= 0` over `ℚ`, so both classify the empty chunk as quiet. -/
def hasSignificantAudio (chunk : Chunk) : Bool :=
  let sum : ℕ := (chunk.map Int.natAbs).sum
  let average : ℚ := (sum : ℚ) / (chunk.length : ℚ)
  decide (100 < average)

/-- Per-user segmenter state: the closure variables `isCollecting` and
`silenceStartTime` of `startRecording`, the `userAudioBuffers` entry, and the
`userRecordingSessions` entry (`isRecording`, `lastProcessedTime`).
`silenceStartTime = 0` means "unset", as in the source. -/
structure SegState where
  isCollecting : Bool
  silenceStartTime : ℕ
  buffer : List Chunk
  isRecording : Bool
  lastProcessedTime : ℕ
deriving DecidableEq, Repr

/-- The state installed by `startRecording`: fresh buffer, recording session
with `lastProcessedTime: 0`, closure flags reset. -/
def startRecordingState : SegState :=
  { isCollecting := false, silenceStartTime := 0, buffer := []
    isRecording := true, lastProcessedTime := 0 }

/-- `finalizeRecording userId buffer`: if a recording session exists, check
the (`*100`) duration; on success update `lastProcessedTime` and hand the
concatenated buffer to `processAndTranscribe`; in either case reset the
accumulator.  The emitted utterance is returned as `some` payload. -/
def finalizeRecording (now : ℕ) (s : SegState) : SegState × Option (List ℤ) :=
  if s.isRecording then
    let totalLength := byteLength s.buffer
    if minDurationMs ≤ finalizeDurationMs totalLength then
      ({ s with lastProcessedTime := now, buffer := [] }, some s.buffer.flatten)
    else
      ({ s with buffer := [] }, none)
  else (s, none)

/-- One step of the `decoder.on('data')` handler for a chunk arriving at time
`now` (sequential semantics: `processingInProgress` is `false` whenever a
frame is handled, because the handler awaits `finalizeRecording` inline). -/
def segStep (now : ℕ) (chunk : Chunk) (s : SegState) : SegState × Option (List ℤ) :=
  if hasSignificantAudio chunk then
    ({ s with isCollecting := true, silenceStartTime := 0
              buffer := s.buffer ++ [chunk] }, none)
  else if s.isCollecting then
    let sst := if s.silenceStartTime = 0 then now else s.silenceStartTime
    if silenceThreshold < now - sst then
      let totalLength := byteLength s.buffer
      if minDurationMs ≤ streamDurationMs totalLength ∧
          PROCESSING_COOLDOWN_MS < now - s.lastProcessedTime then
        let res := finalizeRecording now
          { s with isCollecting := false, silenceStartTime := sst }
        ({ res.1 with buffer := [] }, res.2)
      else
        ({ s with isCollecting := false, silenceStartTime := sst }, none)
    else
      ({ s with silenceStartTime := sst, buffer := s.buffer ++ [chunk] }, none)
  else (s, none)

/-- Run the segmenter over a list of timestamped chunks, collecting every
utterance handed to the pipeline. -/
def segRun (s : SegState) : List (ℕ × Chunk) → SegState × List (List ℤ)
  | [] => (s, [])
  | (t, c) :: rest =>
    let step := segStep t c s
    let tail := segRun step.1 rest
    (tail.1, step.2.toList ++ tail.2)

/-- Timestamp a chunk sequence at the opus decoder's 20 ms frame cadence
starting at `t0`. -/
def framesAt : ℕ → List Chunk → List (ℕ × Chunk)
  | _, [] => []
  | t, c :: cs => (t, c) :: framesAt (t + 20) cs

end SchedulerBot

namespace SchedulerBot

/-! ### Basic segmenter lemmas -/

theorem segRun_append (s : SegState) (l₁ l₂ : List (ℕ × Chunk)) :
    segRun s (l₁ ++ l₂) =
      ((segRun (segRun s l₁).1 l₂).1,
        (segRun s l₁).2 ++ (segRun (segRun s l₁).1 l₂).2) := by
  induction l₁ generalizing s with
  | nil => simp [segRun]
  | cons hd tl ih =>
    obtain ⟨t, c⟩ := hd
    simp [segRun, ih, List.append_assoc]

theorem framesAt_append (t : ℕ) (l₁ l₂ : List Chunk) :
    framesAt t (l₁ ++ l₂) = framesAt t l₁ ++ framesAt (t + 20 * l₁.length) l₂ := by
  induction l₁ generalizing t with
  | nil => simp [framesAt]
  | cons hd tl ih =>
    show (t, hd) :: framesAt (t + 20) (tl ++ l₂) = _
    rw [ih, List.length_cons]
    have h20 : t + 20 + 20 * tl.length = t + 20 * (tl.length + 1) := by ring
    rw [h20]
    simp [framesAt]

/-- A run of loud frames: the segmenter collects every chunk, sets
`isCollecting` and clears the silence timer, and never emits. -/
theorem segRun_loud (cs : List Chunk) (hcs : ∀ c ∈ cs, hasSignificantAudio c = true) :
    ∀ (t : ℕ) (s : SegState),
      segRun s (framesAt t cs) =
        (if cs = [] then s else
          { s with isCollecting := true, silenceStartTime := 0
                   buffer := s.buffer ++ cs }, []) := by
  induction cs with
  | nil => intro t s; simp [framesAt, segRun]
  | cons c cs' ih =>
    intro t s
    have hc : hasSignificantAudio c = true := hcs c (by simp)
    have hcs' : ∀ c ∈ cs', hasSignificantAudio c = true := by
      intro x hx; exact hcs x (by simp [hx])
    simp only [framesAt, segRun, segStep, hc, if_true]
    rw [ih hcs' (t + 20)]
    by_cases h : cs' = []
    · subst h; simp
    · simp only [h, if_false, List.cons_ne_nil, Option.toList_none, List.nil_append]
      congr 1
      simp [List.append_assoc]

/-- A quiet frame arriving while collecting with the silence timer unset:
the timer is started at the frame's arrival time and the chunk is kept. -/
theorem segStep_quiet_first (q : Chunk) (hq : hasSignificantAudio q = false)
    (tq : ℕ) (B : List Chunk) (rec : Bool) (lpt : ℕ) :
    segStep tq q ⟨true, 0, B, rec, lpt⟩ = (⟨true, tq, B ++ [q], rec, lpt⟩, none) := by
  simp [segStep, hq, silenceThreshold]

/-- Quiet frames arriving while the silence timer is running and the elapsed
silence is still within the 2 s threshold: chunks keep being appended.
Frame `i` of `qs` arrives at `tq + 20 * (j + i)`, where `tq` is the (nonzero)
time the silence timer was started. -/
theorem segRun_quiet_pending (qs : List Chunk)
    (hqs : ∀ c ∈ qs, hasSignificantAudio c = false) :
    ∀ (j : ℕ) (tq : ℕ) (B : List Chunk) (rec : Bool) (lpt : ℕ),
      0 < tq → j + qs.length ≤ 101 →
      segRun ⟨true, tq, B, rec, lpt⟩ (framesAt (tq + 20 * j) qs) =
        (⟨true, tq, B ++ qs, rec, lpt⟩, []) := by
  induction qs with
  | nil => intro j tq B rec lpt _ _; simp [framesAt, segRun]
  | cons q qs' ih =>
    intro j tq B rec lpt htq hlen
    have hq : hasSignificantAudio q = false := hqs q (by simp)
    have hqs' : ∀ c ∈ qs', hasSignificantAudio c = false := by
      intro x hx; exact hqs x (by simp [hx])
    have hj : j ≤ 100 := by simp only [List.length_cons] at hlen; omega
    have hstep :
        segStep (tq + 20 * j) q ⟨true, tq, B, rec, lpt⟩ =
          (⟨true, tq, B ++ [q], rec, lpt⟩, none) := by
      have htq0 : ¬ (tq = 0) := by omega
      have hth : ¬ silenceThreshold < 20 * j := by
        simp only [silenceThreshold]; omega
      simp [segStep, hq, htq0, hth]
    simp only [framesAt, segRun, hstep]
    have harg : tq + 20 * j + 20 = tq + 20 * (j + 1) := by ring
    rw [harg, ih hqs' (j + 1) tq (B ++ [q]) rec lpt htq (by
      simp [List.length_cons] at hlen ⊢; omega)]
    simp [List.append_assoc]

/-- The quiet phase that follows speech: the first quiet frame starts the
silence timer at its arrival time `tq`, and up to 101 quiet frames in total
are appended without firing the threshold. -/
theorem segRun_quiet_phase (qs : List Chunk)
    (hqs : ∀ c ∈ qs, hasSignificantAudio c = false)
    (hlen : qs.length ≤ 101) (hone : 1 ≤ qs.length)
    (tq : ℕ) (htq : 0 < tq) (B : List Chunk) (rec : Bool) (lpt : ℕ) :
    segRun ⟨true, 0, B, rec, lpt⟩ (framesAt tq qs) =
      (⟨true, tq, B ++ qs, rec, lpt⟩, []) := by
  match qs, hone with
  | q :: qs', _ =>
    have hq : hasSignificantAudio q = false := hqs q (by simp)
    have hqs' : ∀ c ∈ qs', hasSignificantAudio c = false := by
      intro x hx; exact hqs x (by simp [hx])
    simp only [framesAt, segRun, segStep_quiet_first q hq tq B rec lpt]
    have harg : tq + 20 = tq + 20 * 1 := by ring
    rw [harg, segRun_quiet_pending qs' hqs' 1 tq (B ++ [q]) rec lpt htq (by
      simp [List.length_cons] at hlen ⊢; omega)]
    simp [List.append_assoc]

/-- Threshold firing with all finalize conditions met: the buffered utterance
is handed to the pipeline, `lastProcessedTime` is updated, and the
accumulator is cleared. -/
theorem segStep_threshold_emit (q : Chunk) (hq : hasSignificantAudio q = false)
    (now tq : ℕ) (B : List Chunk) (lpt : ℕ)
    (htq : tq ≠ 0) (hth : silenceThreshold < now - tq)
    (hstream : minDurationMs ≤ streamDurationMs (byteLength B))
    (hcool : PROCESSING_COOLDOWN_MS < now - lpt)
    (hfin : minDurationMs ≤ finalizeDurationMs (byteLength B)) :
    segStep now q ⟨true, tq, B, true, lpt⟩ =
      (⟨false, tq, [], true, now⟩, some B.flatten) := by
  simp [segStep, hq, htq, hth, hstream, hcool, finalizeRecording, hfin]

/-- Threshold firing where the streaming check passes but the finalize-side
(`*100`) duration check fails: the accumulator is cleared, nothing is handed
to the pipeline, and `lastProcessedTime` is not updated. -/
theorem segStep_threshold_dropped (q : Chunk) (hq : hasSignificantAudio q = false)
    (now tq : ℕ) (B : List Chunk) (lpt : ℕ)
    (htq : tq ≠ 0) (hth : silenceThreshold < now - tq)
    (hstream : minDurationMs ≤ streamDurationMs (byteLength B))
    (hcool : PROCESSING_COOLDOWN_MS < now - lpt)
    (hfin : ¬ minDurationMs ≤ finalizeDurationMs (byteLength B)) :
    segStep now q ⟨true, tq, B, true, lpt⟩ =
      (⟨false, tq, [], true, lpt⟩, none) := by
  simp [segStep, hq, htq, hth, hstream, hcool, finalizeRecording, hfin]

/-- Threshold firing where a streaming precondition fails (duration below
minimum or cooldown not elapsed): `finalizeRecording` is never entered, and
the accumulator keeps its contents. -/
theorem segStep_threshold_blocked (q : Chunk) (hq : hasSignificantAudio q = false)
    (now tq : ℕ) (B : List Chunk) (rec : Bool) (lpt : ℕ)
    (htq : tq ≠ 0) (hth : silenceThreshold < now - tq)
    (hfail : ¬ (minDurationMs ≤ streamDurationMs (byteLength B) ∧
                PROCESSING_COOLDOWN_MS < now - lpt)) :
    segStep now q ⟨true, tq, B, rec, lpt⟩ =
      (⟨false, tq, B, rec, lpt⟩, none) := by
  simp [segStep, hq, htq, hth, hfail]

/-- Quiet frames arriving while not collecting are ignored entirely. -/
theorem segRun_quiet_idle (qs : List Chunk)
    (hqs : ∀ c ∈ qs, hasSignificantAudio c = false) :
    ∀ (t sst : ℕ) (B : List Chunk) (rec : Bool) (lpt : ℕ),
      segRun ⟨false, sst, B, rec, lpt⟩ (framesAt t qs) =
        (⟨false, sst, B, rec, lpt⟩, []) := by
  induction qs with
  | nil => intro t sst B rec lpt; simp [framesAt, segRun]
  | cons q qs' ih =>
    intro t sst B rec lpt
    have hq : hasSignificantAudio q = false := hqs q (by simp)
    have hqs' : ∀ c ∈ qs', hasSignificantAudio c = false := by
      intro x hx; exact hqs x (by simp [hx])
    simp only [framesAt, segRun, segStep, hq, Bool.false_eq_true, if_false]
    rw [ih hqs' (t + 20) sst B rec lpt]
    simp

/-! ### Duration arithmetic for 20 ms decoder frames (1920 samples, 3840 bytes) -/

theorem byteLength_const (buf : List Chunk) (h : ∀ c ∈ buf, c.length = 1920) :
    byteLength buf = 3840 * buf.length := by
  induction buf with
  | nil => simp [byteLength]
  | cons c cs ih =>
    have hc : c.length = 1920 := h c (by simp)
    have ih' := ih (fun x hx => h x (by simp [hx]))
    simp only [byteLength, List.map_cons, List.sum_cons, List.length_cons] at ih' ⊢
    rw [hc, ih']
    ring

theorem streamDurationMs_frames (n : ℕ) :
    streamDurationMs (3840 * n) = 20 * n := by
  unfold streamDurationMs
  push_cast
  ring

theorem finalizeDurationMs_frames (n : ℕ) :
    finalizeDurationMs (3840 * n) = 2 * n := by
  unfold finalizeDurationMs
  push_cast
  ring

/-- One full loud/quiet cycle at the 20 ms cadence: `L` loud chunks then at
least 102 quiet chunks.  The trailing-silence threshold fires at the 102nd
quiet frame (elapsed silence 2020 ms > 2000 ms); the buffer then holds the
loud chunks plus the first 101 quiet chunks, and the three possible outcomes
(emit / dropped by the finalize-side duration check / blocked by a streaming
precondition) follow `segStep`. -/
theorem segRun_cycle (L Q : List Chunk)
    (hL : ∀ c ∈ L, hasSignificantAudio c = true)
    (hQ : ∀ c ∈ Q, hasSignificantAudio c = false)
    (hk : 1 ≤ L.length) (hm : 102 ≤ Q.length)
    (t0 : ℕ) (ht0 : 0 < t0)
    (col0 : Bool) (sst0 : ℕ) (B0 : List Chunk) (lpt : ℕ) :
    segRun ⟨col0, sst0, B0, true, lpt⟩ (framesAt t0 (L ++ Q)) =
      (if minDurationMs ≤ streamDurationMs (byteLength (B0 ++ L ++ Q.take 101)) ∧
          PROCESSING_COOLDOWN_MS < t0 + 20 * L.length + 2020 - lpt then
        if minDurationMs ≤ finalizeDurationMs (byteLength (B0 ++ L ++ Q.take 101)) then
          (⟨false, t0 + 20 * L.length, [], true, t0 + 20 * L.length + 2020⟩,
            [(B0 ++ L ++ Q.take 101).flatten])
        else (⟨false, t0 + 20 * L.length, [], true, lpt⟩, [])
      else (⟨false, t0 + 20 * L.length, B0 ++ L ++ Q.take 101, true, lpt⟩, [])) := by
  have hd : Q.drop 101 ≠ [] := by
    intro h
    have := congrArg List.length h
    simp [List.length_drop] at this
    omega
  obtain ⟨qthr, Qrest, hQd⟩ := List.exists_cons_of_ne_nil hd
  have hQsplit : Q = Q.take 101 ++ (qthr :: Qrest) := by
    rw [← hQd, List.take_append_drop]
  have htake_len : (Q.take 101).length = 101 := by
    simp [List.length_take]; omega
  have hQtake : ∀ c ∈ Q.take 101, hasSignificantAudio c = false := by
    intro c hc; exact hQ c (List.mem_of_mem_take hc)
  have hqthr : hasSignificantAudio qthr = false := by
    apply hQ
    have : qthr ∈ Q.drop 101 := by rw [hQd]; simp
    exact List.mem_of_mem_drop this
  have hQrest : ∀ c ∈ Qrest, hasSignificantAudio c = false := by
    intro c hc
    apply hQ
    have : c ∈ Q.drop 101 := by rw [hQd]; simp [hc]
    exact List.mem_of_mem_drop this
  -- lay out the four segments of the trace
  rw [show L ++ Q = L ++ (Q.take 101 ++ ([qthr] ++ Qrest)) by
        conv_lhs => rw [hQsplit]
        simp]
  rw [framesAt_append, segRun_append,
    segRun_loud L hL t0 ⟨col0, sst0, B0, true, lpt⟩]
  have hLne : ¬ (L = []) := by
    intro h; rw [h] at hk; simp at hk
  simp only [hLne, if_false]
  rw [framesAt_append, segRun_append,
    segRun_quiet_phase (Q.take 101) hQtake (by omega) (by omega)
      (t0 + 20 * L.length) (by omega) (B0 ++ L) true lpt]
  have htth : t0 + 20 * L.length + 20 * (Q.take 101).length =
      t0 + 20 * L.length + 2020 := by rw [htake_len]
  rw [htth, framesAt_append, segRun_append]
  have htqne : t0 + 20 * L.length ≠ 0 := by omega
  have hth : silenceThreshold < (t0 + 20 * L.length + 2020) - (t0 + 20 * L.length) := by
    simp only [silenceThreshold]; omega
  have hBth : (B0 ++ L) ++ Q.take 101 = B0 ++ L ++ Q.take 101 := rfl
  by_cases hpre : minDurationMs ≤ streamDurationMs (byteLength (B0 ++ L ++ Q.take 101)) ∧
      PROCESSING_COOLDOWN_MS < t0 + 20 * L.length + 2020 - lpt
  · by_cases hfin : minDurationMs ≤ finalizeDurationMs (byteLength (B0 ++ L ++ Q.take 101))
    · have hstep := segStep_threshold_emit qthr hqthr (t0 + 20 * L.length + 2020)
        (t0 + 20 * L.length) (B0 ++ L ++ Q.take 101) lpt htqne hth hpre.1 hpre.2 hfin
      simp only [framesAt, segRun, hBth, hstep]
      rw [segRun_quiet_idle Qrest hQrest, if_pos hpre, if_pos hfin]
      simp
    · have hstep := segStep_threshold_dropped qthr hqthr (t0 + 20 * L.length + 2020)
        (t0 + 20 * L.length) (B0 ++ L ++ Q.take 101) lpt htqne hth hpre.1 hpre.2 hfin
      simp only [framesAt, segRun, hBth, hstep]
      rw [segRun_quiet_idle Qrest hQrest, if_pos hpre, if_neg hfin]
      simp
  · have hstep := segStep_threshold_blocked qthr hqthr (t0 + 20 * L.length + 2020)
      (t0 + 20 * L.length) (B0 ++ L ++ Q.take 101) true lpt htqne hth hpre
    simp only [framesAt, segRun, hBth, hstep]
    rw [segRun_quiet_idle Qrest hQrest, if_neg hpre]
    simp

/-! ### Concrete 20 ms decoder frames used as witnesses -/

/-- A uniformly loud 20 ms decoder frame (1920 samples at amplitude 200;
average absolute magnitude 200 > 100). -/
def loudChunk : Chunk := List.replicate 1920 200

/-- A uniformly silent 20 ms decoder frame. -/
def quietChunk : Chunk := List.replicate 1920 0

theorem hasSignificantAudio_loudChunk : hasSignificantAudio loudChunk = true := by
  unfold hasSignificantAudio loudChunk
  simp only [List.map_replicate, List.sum_replicate, List.length_replicate,
    smul_eq_mul, decide_eq_true_eq]
  norm_num

theorem hasSignificantAudio_quietChunk : hasSignificantAudio quietChunk = false := by
  unfold hasSignificantAudio quietChunk
  simp only [List.map_replicate, List.sum_replicate, List.length_replicate,
    smul_eq_mul, decide_eq_false_iff_not]
  norm_num

end SchedulerBot

namespace SchedulerBot

/-! ## Claims C1, C2, C3 -/

/-- Claim C2 (confirmed): for every non-empty accumulated buffer list, the
duration computed by the streaming silence-threshold check (`* 1000`) and the
duration computed inside `finalizeRecording` (`* 100`) for the same total
byte length differ by exactly a factor of 10: the finalize-side duration is
one tenth of the streaming-side duration. -/
theorem c2_duration_factor_ten (buffer : List Chunk) (_h : buffer ≠ []) :
    10 * finalizeDurationMs (byteLength buffer) = streamDurationMs (byteLength buffer) := by
  unfold finalizeDurationMs streamDurationMs
  ring

theorem c2_duration_factor_ten_witness :
    ([[0]] : List Chunk) ≠ [] ∧
    10 * finalizeDurationMs (byteLength [[0]]) = streamDurationMs (byteLength [[0]]) :=
  ⟨by simp, c2_duration_factor_ten [[0]] (by simp)⟩

/-- Claim C1 (amended): with 20 ms decoder frames, feeding `k` loud frames
then `m ≥ 102` quiet frames emits exactly one utterance once the elapsed
quiet time exceeds the 2 s silence threshold — but only when the
finalize-side duration (one tenth of the real accumulated duration, because
`finalizeRecording` converts with `* 100` instead of `* 1000`) reaches the
300 ms minimum, i.e. when the real accumulated audio spans at least 3000 ms
(`k ≥ 49` frames of speech plus the 101 retained silence frames); a second
loud/quiet cycle whose threshold fires within the 5 s cooldown after that
emission produces no second utterance. -/
theorem c1_segmenter_amended
    (L1 Q1 L2 Q2 : List Chunk)
    (hL1 : ∀ c ∈ L1, hasSignificantAudio c = true)
    (hL1sz : ∀ c ∈ L1, c.length = 1920)
    (hQ1 : ∀ c ∈ Q1, hasSignificantAudio c = false)
    (hQ1sz : ∀ c ∈ Q1, c.length = 1920)
    (hL2 : ∀ c ∈ L2, hasSignificantAudio c = true)
    (hQ2 : ∀ c ∈ Q2, hasSignificantAudio c = false)
    (hk : 49 ≤ L1.length) (hm : 102 ≤ Q1.length)
    (hk2 : 1 ≤ L2.length) (hm2 : 102 ≤ Q2.length)
    (t0 : ℕ) (ht0 : 0 < t0)
    (hcool1 : PROCESSING_COOLDOWN_MS < t0 + 20 * L1.length + 2020)
    (hcool2 : 20 * (Q1.length + L2.length) ≤ PROCESSING_COOLDOWN_MS) :
    (segRun startRecordingState (framesAt t0 (L1 ++ Q1 ++ L2 ++ Q2))).2 =
      [(L1 ++ Q1.take 101).flatten] := by
  have hassoc : L1 ++ Q1 ++ L2 ++ Q2 = (L1 ++ Q1) ++ (L2 ++ Q2) := by
    simp [List.append_assoc]
  have hB1 : byteLength (([] : List Chunk) ++ L1 ++ Q1.take 101) =
      3840 * (L1.length + 101) := by
    rw [byteLength_const]
    · have hmin : min 101 Q1.length = 101 := by omega
      simp [List.length_append, List.length_take, hmin]
    · intro c hc
      simp only [List.nil_append, List.mem_append] at hc
      rcases hc with hc | hc
      · exact hL1sz c hc
      · exact hQ1sz c (List.mem_of_mem_take hc)
  have hstream1 : minDurationMs ≤ streamDurationMs (byteLength ([] ++ L1 ++ Q1.take 101)) := by
    rw [hB1, streamDurationMs_frames]
    unfold minDurationMs
    have h101 : (101 : ℚ) ≤ ((L1.length + 101 : ℕ) : ℚ) := by
      exact_mod_cast Nat.le_add_left 101 L1.length
    linarith
  have hfin1 : minDurationMs ≤ finalizeDurationMs (byteLength ([] ++ L1 ++ Q1.take 101)) := by
    rw [hB1, finalizeDurationMs_frames]
    unfold minDurationMs
    have h150 : (150 : ℚ) ≤ ((L1.length + 101 : ℕ) : ℚ) := by
      exact_mod_cast (by omega : 150 ≤ L1.length + 101)
    linarith
  rw [hassoc, framesAt_append, segRun_append]
  unfold startRecordingState
  rw [segRun_cycle L1 Q1 hL1 hQ1 (by omega) hm t0 ht0 false 0 [] 0,
    if_pos ⟨hstream1, by simpa using hcool1⟩, if_pos hfin1]
  rw [segRun_cycle L2 Q2 hL2 hQ2 hk2 hm2 (t0 + 20 * (L1 ++ Q1).length)
    (by simp [List.length_append]; omega) false (t0 + 20 * L1.length) []
    (t0 + 20 * L1.length + 2020)]
  have hnc : ¬ (minDurationMs ≤ streamDurationMs (byteLength (([] : List Chunk) ++ L2 ++ Q2.take 101)) ∧
      PROCESSING_COOLDOWN_MS < t0 + 20 * (L1 ++ Q1).length + 20 * L2.length + 2020 -
        (t0 + 20 * L1.length + 2020)) := by
    rintro ⟨-, hc⟩
    simp only [List.length_append] at hc
    simp only [PROCESSING_COOLDOWN_MS] at hc hcool2
    omega
  rw [if_neg hnc]
  simp

theorem c1_segmenter_amended_witness :
    (segRun startRecordingState
      (framesAt 6000 (List.replicate 49 loudChunk ++ List.replicate 102 quietChunk ++
        [loudChunk] ++ List.replicate 102 quietChunk))).2 =
      [(List.replicate 49 loudChunk ++ (List.replicate 102 quietChunk).take 101).flatten] := by
  apply c1_segmenter_amended
  · intro c hc; rw [List.eq_of_mem_replicate hc]; exact hasSignificantAudio_loudChunk
  · intro c hc; rw [List.eq_of_mem_replicate hc]; unfold loudChunk
    rw [List.length_replicate]
  · intro c hc; rw [List.eq_of_mem_replicate hc]; exact hasSignificantAudio_quietChunk
  · intro c hc; rw [List.eq_of_mem_replicate hc]; unfold quietChunk
    rw [List.length_replicate]
  · intro c hc; rw [List.mem_singleton] at hc; rw [hc]; exact hasSignificantAudio_loudChunk
  · intro c hc; rw [List.eq_of_mem_replicate hc]; exact hasSignificantAudio_quietChunk
  · simp only [List.length_replicate]; omega
  · simp only [List.length_replicate]; omega
  · simp only [List.length_cons, List.length_nil]; omega
  · simp only [List.length_replicate]; omega
  · omega
  · simp only [List.length_replicate, PROCESSING_COOLDOWN_MS]; omega
  · simp only [List.length_replicate, List.length_cons, List.length_nil,
      PROCESSING_COOLDOWN_MS]
    omega

/-- Claim C1 (counterexample to the original wording): 20 loud 20 ms frames
are 400 ms of audio — comfortably above the 300 ms minimum — followed by
102 quiet frames (2020 ms of silence, beyond the 2 s threshold), yet the
segmenter hands nothing to the pipeline: `finalizeRecording`'s `* 100`
duration check computes 242 ms < 300 ms and drops the utterance. -/
theorem c1_segmenter_counterexample :
    streamDurationMs (byteLength (List.replicate 20 loudChunk)) = 400 ∧
    (segRun startRecordingState
      (framesAt 6000 (List.replicate 20 loudChunk ++ List.replicate 102 quietChunk))).2 = [] := by
  have hlen20 : byteLength (List.replicate 20 loudChunk) = 3840 * 20 := by
    rw [byteLength_const]
    · rw [List.length_replicate]
    · intro c hc; rw [List.eq_of_mem_replicate hc]; unfold loudChunk
      rw [List.length_replicate]
  constructor
  · rw [hlen20, streamDurationMs_frames]; norm_num
  · have hL : ∀ c ∈ List.replicate 20 loudChunk, hasSignificantAudio c = true := by
      intro c hc; rw [List.eq_of_mem_replicate hc]; exact hasSignificantAudio_loudChunk
    have hQ : ∀ c ∈ List.replicate 102 quietChunk, hasSignificantAudio c = false := by
      intro c hc; rw [List.eq_of_mem_replicate hc]; exact hasSignificantAudio_quietChunk
    have hB : byteLength (([] : List Chunk) ++ List.replicate 20 loudChunk ++
        (List.replicate 102 quietChunk).take 101) = 3840 * 121 := by
      rw [byteLength_const]
      · simp only [List.length_append, List.length_take, List.length_replicate,
          List.length_nil]
        omega
      · intro c hc
        simp only [List.nil_append, List.mem_append] at hc
        rcases hc with hc | hc
        · rw [List.eq_of_mem_replicate hc]; unfold loudChunk
          rw [List.length_replicate]
        · rw [List.eq_of_mem_replicate (List.mem_of_mem_take hc)]; unfold quietChunk
          rw [List.length_replicate]
    unfold startRecordingState
    rw [segRun_cycle (List.replicate 20 loudChunk) (List.replicate 102 quietChunk)
      hL hQ (by rw [List.length_replicate]; omega) (by rw [List.length_replicate]) 6000
      (by omega) false 0 [] 0]
    rw [if_pos ⟨by rw [hB, streamDurationMs_frames]; unfold minDurationMs; norm_num,
        by simp only [List.length_replicate, PROCESSING_COOLDOWN_MS]; omega⟩]
    rw [if_neg (by rw [hB, finalizeDurationMs_frames]; unfold minDurationMs; norm_num)]

/-- Claim C3 (amended): when the trailing-silence threshold fires, the
segmenter leaves `Collecting` and the pipeline is never invoked on failure —
but the accumulator is emptied only when the streaming preconditions pass and
the finalize-side duration check fails; when the streaming duration or
cooldown precondition fails, `finalizeRecording` is never entered and the
accumulator keeps its contents. -/
theorem c3_failed_finalize_amended (s : SegState) (now : ℕ) (chunk : Chunk)
    (hq : hasSignificantAudio chunk = false)
    (hcol : s.isCollecting = true) (hrec : s.isRecording = true)
    (hsst : s.silenceStartTime ≠ 0)
    (hth : silenceThreshold < now - s.silenceStartTime) :
    (¬ (minDurationMs ≤ streamDurationMs (byteLength s.buffer) ∧
        PROCESSING_COOLDOWN_MS < now - s.lastProcessedTime) →
      segStep now chunk s = ({ s with isCollecting := false }, none))
    ∧ (minDurationMs ≤ streamDurationMs (byteLength s.buffer) →
       PROCESSING_COOLDOWN_MS < now - s.lastProcessedTime →
       ¬ minDurationMs ≤ finalizeDurationMs (byteLength s.buffer) →
      segStep now chunk s = ({ s with isCollecting := false, buffer := [] }, none)) := by
  obtain ⟨col, sst, B, rec, lpt⟩ := s
  simp only at hcol hrec hsst hth
  subst hcol hrec
  constructor
  · intro hfail
    exact segStep_threshold_blocked chunk hq now sst B true lpt hsst hth hfail
  · intro h1 h2 h3
    exact segStep_threshold_dropped chunk hq now sst B lpt hsst hth h1 h2 h3

theorem c3_failed_finalize_amended_witness :
    segStep 6000 [(0 : ℤ), 0] ⟨true, 100, [List.replicate 28800 0], true, 0⟩ =
      (⟨false, 100, [], true, 0⟩, none) := by
  exact (c3_failed_finalize_amended ⟨true, 100, [List.replicate 28800 0], true, 0⟩
    6000 [(0 : ℤ), 0]
    (by unfold hasSignificantAudio; norm_num)
    rfl rfl (by show (100 : ℕ) ≠ 0; omega)
    (by show silenceThreshold < 6000 - 100; unfold silenceThreshold; omega)).2
    (by show minDurationMs ≤ streamDurationMs (byteLength [List.replicate 28800 0])
        simp only [byteLength, List.map_cons, List.map_nil, List.sum_cons, List.sum_nil,
          List.length_replicate, streamDurationMs, minDurationMs]
        norm_num)
    (by show PROCESSING_COOLDOWN_MS < 6000 - 0; unfold PROCESSING_COOLDOWN_MS; omega)
    (by show ¬ minDurationMs ≤ finalizeDurationMs (byteLength [List.replicate 28800 0])
        simp only [byteLength, List.map_cons, List.map_nil, List.sum_cons, List.sum_nil,
          List.length_replicate, finalizeDurationMs, minDurationMs]
        norm_num)

/-- Claim C3 (counterexample to the original wording): the threshold fires
at 2200 ms with the cooldown precondition failing (2200 ≤ 5000 since
`lastProcessedTime = 0`), and the accumulator is NOT emptied: the buffered
chunk `[1, 2, 3]` survives, contradicting the claim that a failed attempt
leaves the per-user accumulator empty. -/
theorem c3_failed_finalize_counterexample :
    (segStep 2200 [(0 : ℤ), 0] ⟨true, 100, [[1, 2, 3]], true, 0⟩).1.buffer = [[1, 2, 3]] ∧
    (segStep 2200 [(0 : ℤ), 0] ⟨true, 100, [[1, 2, 3]], true, 0⟩).2 = none := by
  have hq : hasSignificantAudio [(0 : ℤ), 0] = false := by
    unfold hasSignificantAudio; norm_num
  have hfail : ¬ (minDurationMs ≤ streamDurationMs (byteLength [[(1 : ℤ), 2, 3]]) ∧
      PROCESSING_COOLDOWN_MS < 2200 - 0) := by
    rintro ⟨-, hc⟩
    simp [PROCESSING_COOLDOWN_MS] at hc
  rw [segStep_threshold_blocked [(0 : ℤ), 0] hq 2200 100 [[1, 2, 3]] true 0
    (by simp) (by simp [silenceThreshold]) hfail]
  exact ⟨rfl, rfl⟩

/-! ## Silence trimmer (`trimSilence`) -/

/-- The RMS windows of `trimSilence`: the sample list split into windows of
`frameSize = 960` samples by the `for (i = 0; i < samples.length; i +=
frameSize)` loop; the last window may be shorter. -/
def toFrames (samples : List ℤ) : List (List ℤ) :=
  if h : samples = [] then [] else
    samples.take 960 :: toFrames (samples.drop 960)
termination_by samples.length
decreasing_by
  simp only [List.length_drop]
  have := List.length_pos.mpr h
  omega

/-- The per-window loudness test `rms > silenceThreshold` with
`rms = Math.sqrt(sumOfSquares / frame.length)` and threshold `500`.
Squaring both (nonnegative) sides gives the exact equivalent
`sumOfSquares > 250000 * frame.length`, which avoids modelling `Math.sqrt`;
for the empty window the source compares `NaN > 500 = false` and the model
compares `0 < 0 = false`. -/
def frameLoud (frame : List ℤ) : Bool :=
  decide (250000 * (frame.length : ℤ) < (frame.map (fun s => s * s)).sum)

/-- Loudness classification of every RMS window of a buffer. -/
def loudFlags (samples : List ℤ) : List Bool := (toFrames samples).map frameLoud

/-- Index of the first `true`, as computed by the source's forward search
(`for i = 0; ...; if frames[i] > silenceThreshold { speechStart = i; break }`). -/
def firstTrue : List Bool → Option ℕ
  | [] => none
  | x :: xs => if x then some 0 else (firstTrue xs).map (· + 1)

/-- Index of the last `true`, as computed by the source's backward search. -/
def lastTrue : List Bool → Option ℕ
  | [] => none
  | x :: xs =>
    match lastTrue xs with
    | some i => some (i + 1)
    | none => if x then some 0 else none

/-- `bufferFrames = Math.floor(0.5 * sampleRate / frameSize) = 25`: the 0.5 s
guard window in frames. -/
def bufferFrames : ℕ := 24000 / 960

/-- `speechStart` after the search (default `0` when no frame is loud) and
the guard padding `Math.max(0, speechStart - bufferFrames)`. -/
def speechStartIdx (flags : List Bool) : ℤ :=
  max 0 ((firstTrue flags).elim 0 (fun i => (i : ℤ)) - bufferFrames)

/-- `speechEnd` after the search (default `frames.length - 1` when no frame
is loud) and the guard padding `Math.min(frames.length - 1, speechEnd +
bufferFrames)`. -/
def speechEndIdx (flags : List Bool) : ℤ :=
  min ((flags.length : ℤ) - 1)
    ((lastTrue flags).elim ((flags.length : ℤ) - 1) (fun i => (i : ℤ)) + bufferFrames)

/-- `trimSilence`: slice the samples from `startSample = speechStart *
frameSize` to `endSample = (speechEnd + 1) * frameSize` (`Array.slice`
clamps to the buffer bounds, as `drop`/`take` do). -/
def trimSilence (samples : List ℤ) : List ℤ :=
  (samples.drop (speechStartIdx (loudFlags samples) * 960).toNat).take
    ((speechEndIdx (loudFlags samples) + 1) * 960 -
      speechStartIdx (loudFlags samples) * 960).toNat

theorem toFrames_nil : toFrames [] = [] := by rw [toFrames]; simp

theorem toFrames_eq_nil_iff (l : List ℤ) : toFrames l = [] ↔ l = [] := by
  constructor
  · intro h
    by_contra hne
    rw [toFrames, dif_neg hne] at h
    exact List.cons_ne_nil _ _ h
  · intro h; rw [h, toFrames_nil]

theorem length_le_mul_toFrames (l : List ℤ) :
    l.length ≤ 960 * (toFrames l).length := by
  induction l using toFrames.induct with
  | case1 => simp [toFrames_nil]
  | case2 l h ih =>
    rw [toFrames, dif_neg h]
    simp only [List.length_cons]
    simp only [List.length_drop] at ih
    omega

theorem toFrames_drop (k : ℕ) : ∀ l : List ℤ,
    toFrames (l.drop (960 * k)) = (toFrames l).drop k := by
  induction k with
  | zero => intro l; simp
  | succ k ih =>
    intro l
    by_cases h : l = []
    · subst h; simp [toFrames_nil]
    · have hdd : l.drop (960 * (k + 1)) = (l.drop 960).drop (960 * k) := by
        rw [List.drop_drop]
        congr 1
        ring
      rw [hdd, ih (l.drop 960)]
      conv_rhs => rw [toFrames, dif_neg h]
      rw [List.drop_succ_cons]

theorem toFrames_take (k : ℕ) : ∀ l : List ℤ,
    toFrames (l.take (960 * k)) = (toFrames l).take k := by
  induction k with
  | zero => intro l; simp [toFrames_nil]
  | succ k ih =>
    intro l
    by_cases h : l = []
    · subst h; simp [toFrames_nil]
    · have hsplit : l.take (960 * (k + 1)) = l.take 960 ++ (l.drop 960).take (960 * k) := by
        rw [show 960 * (k + 1) = 960 + 960 * k by ring, List.take_add]
      rw [hsplit]
      by_cases hlen : l.length ≤ 960
      · have hd : l.drop 960 = [] := List.drop_eq_nil_of_le hlen
        have ht : l.take 960 = l := List.take_of_length_le hlen
        rw [hd, ht]
        simp only [List.take_nil, List.append_nil]
        rw [toFrames, dif_neg h, hd, toFrames_nil, ht]
        simp
      · push_neg at hlen
        have h960 : (l.take 960).length = 960 := by
          rw [List.length_take]; omega
        have hne : l.take 960 ++ (l.drop 960).take (960 * k) ≠ [] := by
          intro hx
          have := congrArg List.length hx
          simp only [List.length_append, h960, List.length_nil] at this
          omega
        rw [toFrames, dif_neg hne, List.take_left' h960, List.drop_left' h960,
          ih (l.drop 960)]
        conv_rhs => rw [toFrames, dif_neg h]
        rw [List.take_succ_cons]

theorem loudFlags_drop_take (l : List ℤ) (st m : ℕ) :
    loudFlags ((l.drop (st * 960)).take (m * 960)) = ((loudFlags l).drop st).take m := by
  unfold loudFlags
  rw [show st * 960 = 960 * st by ring, show m * 960 = 960 * m by ring,
    toFrames_take, toFrames_drop, List.map_take, List.map_drop]

/-- When the computed speech range is the full frame range, `trimSilence` is
the identity. -/
theorem trimSilence_full (l : List ℤ)
    (h1 : speechStartIdx (loudFlags l) = 0)
    (h2 : speechEndIdx (loudFlags l) = (loudFlags l).length - 1) :
    trimSilence l = l := by
  unfold trimSilence
  rw [h1, h2]
  rcases Nat.eq_zero_or_pos (loudFlags l).length with h0 | hpos
  · have hfr : toFrames l = [] := by
      have := h0
      unfold loudFlags at this
      simpa using List.length_eq_zero.mp (by simpa using this)
    have hl : l = [] := (toFrames_eq_nil_iff l).mp hfr
    subst hl
    simp
  · have hlen : (loudFlags l).length = (toFrames l).length := by
      unfold loudFlags; simp
    have harg : (((loudFlags l).length : ℤ) - 1 + 1) * 960 - 0 * 960 =
        ((960 * (loudFlags l).length : ℕ) : ℤ) := by push_cast; ring
    rw [harg]
    simp only [zero_mul, Int.toNat_zero, List.drop_zero, Int.toNat_natCast]
    have hbound : l.length ≤ 960 * (loudFlags l).length := by
      rw [hlen]; exact length_le_mul_toFrames l
    exact List.take_of_length_le hbound

/-! ### Search lemmas for `firstTrue` / `lastTrue` -/

theorem firstTrue_eq_none (l : List Bool) (h : ∀ x ∈ l, x = false) :
    firstTrue l = none := by
  induction l with
  | nil => rfl
  | cons x xs ih =>
    have hx : x = false := h x (by simp)
    rw [firstTrue, hx, if_neg (by simp), ih (fun y hy => h y (by simp [hy]))]
    rfl

theorem lastTrue_eq_none (l : List Bool) (h : ∀ x ∈ l, x = false) :
    lastTrue l = none := by
  induction l with
  | nil => rfl
  | cons x xs ih =>
    have hx : x = false := h x (by simp)
    rw [lastTrue, ih (fun y hy => h y (by simp [hy])), hx]
    simp

theorem firstTrue_false_append (a : ℕ) (l : List Bool) :
    firstTrue (List.replicate a false ++ l) = (firstTrue l).map (· + a) := by
  induction a with
  | zero =>
    simp only [List.replicate_zero, List.nil_append]
    cases h : firstTrue l <;> simp [h]
  | succ a ih =>
    rw [List.replicate_succ, List.cons_append, firstTrue, if_neg (by simp), ih]
    cases h : firstTrue l <;> simp [h]
    omega

theorem firstTrue_true_cons (l : List Bool) : firstTrue (true :: l) = some 0 := by
  rw [firstTrue]
  simp

theorem lastTrue_concat_false (l : List Bool) :
    lastTrue (l ++ [false]) = lastTrue l := by
  induction l with
  | nil => rfl
  | cons x xs ih =>
    rw [List.cons_append, lastTrue, ih, lastTrue]

theorem lastTrue_append_false (l : List Bool) (b : ℕ) :
    lastTrue (l ++ List.replicate b false) = lastTrue l := by
  induction b with
  | zero => simp
  | succ b ih =>
    have hrep : (List.replicate (b + 1) false : List Bool) =
        List.replicate b false ++ [false] := by
      rw [List.replicate_add]
      simp
    rw [hrep, ← List.append_assoc, lastTrue_concat_false, ih]

theorem lastTrue_false_append (a : ℕ) (l : List Bool) :
    lastTrue (List.replicate a false ++ l) = (lastTrue l).map (· + a) := by
  induction a with
  | zero =>
    simp only [List.replicate_zero, List.nil_append]
    cases h : lastTrue l <;> simp [h]
  | succ a ih =>
    rw [List.replicate_succ, List.cons_append, lastTrue, ih]
    cases h : lastTrue l <;> simp [h]
    omega

theorem lastTrue_replicate_true (n : ℕ) (h : 1 ≤ n) :
    lastTrue (List.replicate n true) = some (n - 1) := by
  induction n with
  | zero => omega
  | succ n ih =>
    rw [List.replicate_succ, lastTrue]
    rcases Nat.eq_zero_or_pos n with h0 | hpos
    · subst h0; rfl
    · rw [ih hpos]
      simp
      omega

/-- The forward search over a single loud region flanked by silence finds the
first loud frame. -/
theorem firstTrue_region (a ℓ b : ℕ) (hℓ : 1 ≤ ℓ) :
    firstTrue (List.replicate a false ++ List.replicate ℓ true ++
      List.replicate b false) = some a := by
  have hT : (List.replicate ℓ true : List Bool) = true :: List.replicate (ℓ - 1) true := by
    conv_lhs => rw [show ℓ = (ℓ - 1) + 1 by omega]
    rw [List.replicate_succ]
  rw [List.append_assoc, hT, List.cons_append, firstTrue_false_append,
    firstTrue_true_cons]
  simp

/-- The backward search over a single loud region flanked by silence finds
the last loud frame. -/
theorem lastTrue_region (a ℓ b : ℕ) (hℓ : 1 ≤ ℓ) :
    lastTrue (List.replicate a false ++ List.replicate ℓ true ++
      List.replicate b false) = some (ℓ - 1 + a) := by
  rw [List.append_assoc, lastTrue_false_append, lastTrue_append_false,
    lastTrue_replicate_true ℓ hℓ]
  simp

/-- Dropping `st ≤ a` frames and keeping `m ≥ (a - st) + ℓ` frames of a
single-loud-region flag list yields another single-loud-region flag list. -/
theorem region_drop_take (a ℓ b st m : ℕ) (hst : st ≤ a) (hm : a - st + ℓ ≤ m) :
    ((List.replicate a false ++ List.replicate ℓ true ++
        List.replicate b false).drop st).take m =
      List.replicate (a - st) false ++ List.replicate ℓ true ++
        List.replicate (min (m - (a - st) - ℓ) b) false := by
  have hsplit : (List.replicate a false : List Bool) =
      List.replicate st false ++ List.replicate (a - st) false := by
    rw [← List.replicate_add]
    congr 1
    omega
  rw [hsplit]
  simp only [List.append_assoc]
  rw [List.drop_left' (List.length_replicate st false)]
  rw [List.take_append_eq_append_take,
    List.take_of_length_le (by rw [List.length_replicate]; omega),
    List.length_replicate]
  rw [List.take_append_eq_append_take,
    List.take_of_length_le (by rw [List.length_replicate]; omega),
    List.length_replicate]
  rw [List.take_replicate]

/-! ## Claims C8, C9 -/

/-- Claim C8 (confirmed): for every PCM buffer in which no RMS frame exceeds
the silence threshold, `trimSilence` returns the original buffer unchanged
(the full frame range, a no-op trim — non-empty whenever the input is), and
for every input buffer whatsoever the returned buffer is never longer than
the input. -/
theorem c8_trim_quiet_noop_and_bounded (samples : List ℤ) :
    ((∀ f ∈ toFrames samples, frameLoud f = false) → trimSilence samples = samples)
    ∧ (trimSilence samples).length ≤ samples.length := by
  constructor
  · intro hq
    have hflags : ∀ x ∈ loudFlags samples, x = false := by
      intro x hx
      unfold loudFlags at hx
      obtain ⟨f, hf, hfx⟩ := List.mem_map.mp hx
      rw [← hfx]
      exact hq f hf
    apply trimSilence_full
    · unfold speechStartIdx bufferFrames
      rw [firstTrue_eq_none _ hflags]
      simp only [Option.elim]
      omega
    · unfold speechEndIdx bufferFrames
      rw [lastTrue_eq_none _ hflags]
      simp only [Option.elim]
      omega
  · unfold trimSilence
    rw [List.length_take, List.length_drop]
    omega

theorem c8_trim_quiet_noop_and_bounded_witness :
    (∀ f ∈ toFrames [(0 : ℤ), 0], frameLoud f = false) ∧
      trimSilence [(0 : ℤ), 0] = [0, 0] := by
  have hf : toFrames [(0 : ℤ), 0] = [[0, 0]] := by
    rw [toFrames, dif_neg (by simp)]
    have h1 : [(0 : ℤ), 0].take 960 = [0, 0] := by decide
    have h2 : [(0 : ℤ), 0].drop 960 = [] := by decide
    rw [h1, h2, toFrames_nil]
  have hq : ∀ f ∈ toFrames [(0 : ℤ), 0], frameLoud f = false := by
    intro f hmem
    rw [hf] at hmem
    rw [List.mem_singleton] at hmem
    rw [hmem]
    decide
  exact ⟨hq, (c8_trim_quiet_noop_and_bounded [(0 : ℤ), 0]).1 hq⟩

/-- Claim C9 (confirmed): for every PCM buffer whose RMS frames form one loud
region flanked by silence, `trimSilence` is idempotent:
`trimSilence (trimSilence b) = trimSilence b`.  The first trim keeps at most
25 padding frames on each side of the loud region, so the second trim's
padded range is the full frame range of its input. -/
theorem c9_trim_idempotent (s : List ℤ) (a ℓ b : ℕ) (hℓ : 1 ≤ ℓ)
    (hflags : loudFlags s = List.replicate a false ++ List.replicate ℓ true ++
      List.replicate b false) :
    trimSilence (trimSilence s) = trimSilence s := by
  have hn : (loudFlags s).length = a + ℓ + b := by
    rw [hflags]
    simp only [List.length_append, List.length_replicate]
  have hfirst : firstTrue (loudFlags s) = some a := by
    rw [hflags]; exact firstTrue_region a ℓ b hℓ
  have hlast : lastTrue (loudFlags s) = some (ℓ - 1 + a) := by
    rw [hflags]; exact lastTrue_region a ℓ b hℓ
  have hstart : speechStartIdx (loudFlags s) = ((a - 25 : ℕ) : ℤ) := by
    unfold speechStartIdx bufferFrames
    rw [hfirst]
    simp only [Option.elim]
    omega
  have hend : speechEndIdx (loudFlags s) =
      ((min (a + ℓ + b - 1) (a + ℓ - 1 + 25) : ℕ) : ℤ) := by
    unfold speechEndIdx bufferFrames
    rw [hlast, hn]
    simp only [Option.elim]
    omega
  have ho : trimSilence s =
      (s.drop ((a - 25) * 960)).take
        ((min (a + ℓ + b - 1) (a + ℓ - 1 + 25) + 1 - (a - 25)) * 960) := by
    unfold trimSilence
    rw [hstart, hend]
    have e1 : (((a - 25 : ℕ) : ℤ) * 960).toNat = (a - 25) * 960 := by omega
    have e2 : ((((min (a + ℓ + b - 1) (a + ℓ - 1 + 25) : ℕ) : ℤ) + 1) * 960 -
        ((a - 25 : ℕ) : ℤ) * 960).toNat =
        (min (a + ℓ + b - 1) (a + ℓ - 1 + 25) + 1 - (a - 25)) * 960 := by omega
    rw [e1, e2]
  have hflagso : loudFlags (trimSilence s) =
      ((loudFlags s).drop (a - 25)).take
        (min (a + ℓ + b - 1) (a + ℓ - 1 + 25) + 1 - (a - 25)) := by
    rw [ho, loudFlags_drop_take]
  have hseg : loudFlags (trimSilence s) =
      List.replicate (a - (a - 25)) false ++ List.replicate ℓ true ++
        List.replicate
          (min (min (a + ℓ + b - 1) (a + ℓ - 1 + 25) + 1 - (a - 25) - (a - (a - 25)) - ℓ) b)
          false := by
    rw [hflagso, hflags,
      region_drop_take a ℓ b (a - 25)
        (min (a + ℓ + b - 1) (a + ℓ - 1 + 25) + 1 - (a - 25)) (by omega) (by omega)]
  have ha2 : a - (a - 25) ≤ 25 := by omega
  have hb2 : min (min (a + ℓ + b - 1) (a + ℓ - 1 + 25) + 1 - (a - 25) - (a - (a - 25)) - ℓ) b
      ≤ 25 := by omega
  have hfirst2 : firstTrue (loudFlags (trimSilence s)) = some (a - (a - 25)) := by
    rw [hseg]; exact firstTrue_region _ _ _ hℓ
  have hlast2 : lastTrue (loudFlags (trimSilence s)) = some (ℓ - 1 + (a - (a - 25))) := by
    rw [hseg]; exact lastTrue_region _ _ _ hℓ
  have hn2 : (loudFlags (trimSilence s)).length =
      (a - (a - 25)) + ℓ +
        min (min (a + ℓ + b - 1) (a + ℓ - 1 + 25) + 1 - (a - 25) - (a - (a - 25)) - ℓ) b := by
    rw [hseg]
    simp only [List.length_append, List.length_replicate]
  apply trimSilence_full
  · unfold speechStartIdx bufferFrames
    rw [hfirst2]
    simp only [Option.elim]
    omega
  · unfold speechEndIdx bufferFrames
    rw [hlast2, hn2]
    simp only [Option.elim]
    omega

theorem c9_trim_idempotent_witness :
    loudFlags [(501 : ℤ)] = List.replicate 0 false ++ List.replicate 1 true ++
      List.replicate 0 false ∧
    trimSilence (trimSilence [(501 : ℤ)]) = trimSilence [(501 : ℤ)] := by
  have hf : toFrames [(501 : ℤ)] = [[501]] := by
    rw [toFrames, dif_neg (by simp)]
    have h1 : [(501 : ℤ)].take 960 = [501] := by decide
    have h2 : [(501 : ℤ)].drop 960 = [] := by decide
    rw [h1, h2, toFrames_nil]
  have hflags : loudFlags [(501 : ℤ)] = List.replicate 0 false ++
      List.replicate 1 true ++ List.replicate 0 false := by
    unfold loudFlags
    rw [hf]
    decide
  exact ⟨hflags, c9_trim_idempotent [(501 : ℤ)] 0 1 0 (le_refl 1) hflags⟩

/-! ## Dialogue layer (`gpt-voice-completions.ts`, context handling in
`whisper.ts`)

The OpenAI chat completion is modelled as an oracle `String → String` from
the prompt to the reply text; the regular-expression extraction of
`[SCHEDULE DATA]:` lines in the (dead) fallback branch is modelled as an
arbitrary function `String → Option String`. -/

def timezone : String := "Asia/Bangkok"

def SCHEDULE_REQUIRED_LINE1 : String :=
  "SCHEDULE_REQUIRED: Please upload your schedule image or provide your availability so I can suggest appropriate meeting times."

def SCHEDULE_REQUIRED_LINE2 : String :=
  "You can upload a calendar screenshot or tell me your available days and times."

/-- Per-user conversation context stored in `userConversations`. -/
structure ConversationContext where
  transcript : String
  meetingTimes : List String
deriving DecidableEq, Repr

/-- The final-summary prompt built when schedule data is present,
`conversationLength >= 3` and prior meeting times exist. -/
def promptSummarySched (transcript scheduleData prevSuggestions : String)
    (conversationLength : ℕ) : String :=
  "You are a smart meeting scheduler with access to the user\x27s schedule.\nGiven transcript: "
    ++ transcript ++ "\nSchedule data: " ++ scheduleData
    ++ "\nPrevious meeting suggestions: " ++ prevSuggestions
    ++ "\nConversation length: " ++ toString conversationLength
    ++ "\nTimezone: " ++ timezone
    ++ "\n\nThe user has provided enough information. Provide a final summary of the meeting details and confirm the scheduling. Include the confirmed meeting time, participants, and any other relevant details."

/-- The follow-up prompt built when schedule data is present. -/
def promptFollowupSched (transcript scheduleData prevContext : String) : String :=
  "You are a smart meeting scheduler with access to the user\x27s schedule.\nGiven transcript: "
    ++ transcript ++ "\nSchedule data: " ++ scheduleData
    ++ "\nPrevious context: " ++ prevContext
    ++ "\nTimezone: " ++ timezone
    ++ "\n\nBased on the user\x27s schedule and previous conversation, suggest 3 optimal meeting times AND generate 1-2 follow-up questions to gather more information. Format as:\n1. [ISO 8601 time]\n2. [ISO 8601 time] \n3. [ISO 8601 time]\nFollow-up: [Your questions]"

/-- The final-summary prompt of the (unreachable) no-schedule branch. -/
def promptSummaryNoSched (transcript prevSuggestions : String)
    (conversationLength : ℕ) : String :=
  "You are a smart meeting scheduler.\nGiven transcript: " ++ transcript
    ++ "\nPrevious meeting suggestions: " ++ prevSuggestions
    ++ "\nConversation length: " ++ toString conversationLength
    ++ "\nTimezone: " ++ timezone
    ++ "\n\nThe user has provided enough information. Provide a final summary of the meeting details and confirm the scheduling. Include the confirmed meeting time, participants, and any other relevant details."

/-- The follow-up prompt of the (unreachable) no-schedule branch. -/
def promptFollowupNoSched (transcript prevContext : String) : String :=
  "You are a smart meeting scheduler.\nGiven transcript: " ++ transcript
    ++ "\nPrevious context: " ++ prevContext
    ++ "\nTimezone: " ++ timezone
    ++ "\n\nSuggest 3 optimal free 30-minute meeting slots AND generate 1-2 follow-up questions to gather more information. Format as:\n1. [ISO 8601 time]\n2. [ISO 8601 time]\n3. [ISO 8601 time]\nFollow-up: [Your questions]"

/-- JS `String.prototype.startsWith`: the pattern's character sequence is a
prefix of the string's. -/
def startsWith (s pre : String) : Bool := pre.data.isPrefixOf s.data

/-- JS `String.prototype.trim`: strip leading and trailing whitespace
(modelled for the ASCII whitespace characters space/tab/CR/LF; the reply
texts handled here contain no exotic Unicode spaces). -/
def trim (s : String) : String :=
  ⟨((s.data.dropWhile Char.isWhitespace).reverse.dropWhile Char.isWhitespace).reverse⟩

/-- JS `String.prototype.split` with a single-character separator (the source
always splits on `'\n'`): `"".split(c) = [""]`, and `n` separators yield
`n + 1` pieces. -/
def splitChar (sep : Char) : List Char → List (List Char)
  | [] => [[]]
  | c :: cs =>
    let r := splitChar sep cs
    if c = sep then [] :: r
    else
      match r with
      | h :: t => (c :: h) :: t
      | [] => [[c]]

/-- `transcript.split('\n')` as a list of strings. -/
def splitOnChar (s : String) (sep : Char) : List String :=
  (splitChar sep s.data).map List.asString

/-- `text.trim().split('\n').map(line => line.trim()).filter(line => line)`. -/
def splitLines (text : String) : List String :=
  ((splitOnChar (trim text) '\n').map trim).filter (· ≠ "")

/-- `currentUserSchedule.get(userId) || ''`, guarded by `if (userId)`
(a missing or empty user id yields no schedule data). -/
def scheduleLookup (userId : Option String) (store : String → Option String) : String :=
  match userId with
  | some uid => if uid = "" then "" else (store uid).getD ""
  | none => ""

/-- `getMeetingTimesByVoice` from `gpt-voice-completions.ts`.  `oracle` is
the chat-completion service; `extractScheduleData` models the regex match of
the fallback branch (its value never matters, see claim C10). -/
def getMeetingTimesByVoice (oracle : String → String)
    (extractScheduleData : String → Option String)
    (transcript : String) (conversationContext : Option ConversationContext)
    (userId : Option String) (store : String → Option String) : List String :=
  let scheduleData := scheduleLookup userId store
  if scheduleData = "" then
    [SCHEDULE_REQUIRED_LINE1, SCHEDULE_REQUIRED_LINE2]
  else
    let scheduleData :=
      match conversationContext with
      | some c =>
        if scheduleData = "" ∧ c.transcript ≠ "" then
          (extractScheduleData c.transcript).getD scheduleData
        else scheduleData
      | none => scheduleData
    let conversationLength :=
      match conversationContext with
      | some c => (splitOnChar c.transcript '\n').length
      | none => 0
    let hasMeetingTimes :=
      match conversationContext with
      | some c => decide (c.meetingTimes.length ≠ 0)
      | none => false
    let prevContext :=
      match conversationContext with
      | some c => if c.transcript = "" then "None" else c.transcript
      | none => "None"
    let prevSuggestions :=
      match conversationContext with
      | some c => String.intercalate ", " c.meetingTimes
      | none => "undefined"
    let prompt :=
      if scheduleData ≠ "" then
        if 3 ≤ conversationLength ∧ hasMeetingTimes = true then
          promptSummarySched transcript scheduleData prevSuggestions conversationLength
        else promptFollowupSched transcript scheduleData prevContext
      else
        if 3 ≤ conversationLength ∧ hasMeetingTimes = true then
          promptSummaryNoSched transcript prevSuggestions conversationLength
        else promptFollowupNoSched transcript prevContext
    splitLines (oracle prompt)

/-- `getMeetingTimesByVoice` with the fallback reassignment of
`scheduleData` removed — the comparison definition for claim C10. -/
def getMeetingTimesByVoiceNoFallback (oracle : String → String)
    (transcript : String) (conversationContext : Option ConversationContext)
    (userId : Option String) (store : String → Option String) : List String :=
  let scheduleData := scheduleLookup userId store
  if scheduleData = "" then
    [SCHEDULE_REQUIRED_LINE1, SCHEDULE_REQUIRED_LINE2]
  else
    let conversationLength :=
      match conversationContext with
      | some c => (splitOnChar c.transcript '\n').length
      | none => 0
    let hasMeetingTimes :=
      match conversationContext with
      | some c => decide (c.meetingTimes.length ≠ 0)
      | none => false
    let prevContext :=
      match conversationContext with
      | some c => if c.transcript = "" then "None" else c.transcript
      | none => "None"
    let prevSuggestions :=
      match conversationContext with
      | some c => String.intercalate ", " c.meetingTimes
      | none => "undefined"
    let prompt :=
      if scheduleData ≠ "" then
        if 3 ≤ conversationLength ∧ hasMeetingTimes = true then
          promptSummarySched transcript scheduleData prevSuggestions conversationLength
        else promptFollowupSched transcript scheduleData prevContext
      else
        if 3 ≤ conversationLength ∧ hasMeetingTimes = true then
          promptSummaryNoSched transcript prevSuggestions conversationLength
        else promptFollowupNoSched transcript prevContext
    splitLines (oracle prompt)

/-- The recording-session record stored in `userRecordingSessions`. -/
structure RecordingSession where
  startTime : ℕ
  isRecording : Bool
  lastProcessedTime : ℕ
deriving DecidableEq, Repr

/-- The four process-wide per-user maps of `whisper.ts`. -/
structure SessionStore where
  userConversations : String → Option ConversationContext
  currentUserSchedule : String → Option String
  userRecordingSessions : String → Option RecordingSession
  userAudioBuffers : String → Option (List Chunk)

/-- `meetingTimes.length > 0 && meetingTimes[0].startsWith('SCHEDULE_REQUIRED:')`. -/
def isScheduleRequired (meetingTimes : List String) : Bool :=
  match meetingTimes with
  | m0 :: _ => startsWith m0 "SCHEDULE_REQUIRED:"
  | [] => false

/-- The context-handling tail of `processAndTranscribe` once transcription
has produced `transcript`: ask the orchestrator; on a `SCHEDULE_REQUIRED:`
first line, return before the context update; otherwise append the new
transcript line and ALL reply lines to the stored context.  Encoding,
transcription, text-channel messaging and playback are external effects that
do not touch the store. -/
def processAndTranscribe (oracle : String → String)
    (extractScheduleData : String → Option String)
    (st : SessionStore) (userId transcript : String) : SessionStore × List String :=
  let existingContext := (st.userConversations userId).getD ⟨"", []⟩
  let meetingTimes := getMeetingTimesByVoice oracle extractScheduleData transcript
    (some existingContext) (some userId) st.currentUserSchedule
  if isScheduleRequired meetingTimes then (st, meetingTimes)
  else
    let updatedContext : ConversationContext :=
      { transcript :=
          if existingContext.transcript = "" then transcript
          else existingContext.transcript ++ "\n" ++ transcript
        meetingTimes := existingContext.meetingTimes ++ meetingTimes }
    ({ st with userConversations :=
        fun u => if u = userId then some updatedContext else st.userConversations u },
      meetingTimes)

/-- `handleTextMessage`: the text entry point.  Unlike the voice path it
updates the stored context unconditionally, even for a `SCHEDULE_REQUIRED:`
reply. -/
def handleTextMessage (oracle : String → String)
    (extractScheduleData : String → Option String)
    (st : SessionStore) (userId message : String) : SessionStore × List String :=
  let existingContext := (st.userConversations userId).getD ⟨"", []⟩
  let meetingTimes := getMeetingTimesByVoice oracle extractScheduleData message
    (some existingContext) (some userId) st.currentUserSchedule
  let updatedContext : ConversationContext :=
    { transcript := existingContext.transcript ++ "\n[Text]: " ++ message
      meetingTimes := existingContext.meetingTimes ++ meetingTimes }
  ({ st with userConversations :=
      fun u => if u = userId then some updatedContext else st.userConversations u },
    meetingTimes)

/-- `clearConversationContext`: deletes the conversation context AND the
schedule entry. -/
def clearConversationContext (st : SessionStore) (userId : String) : SessionStore :=
  { st with
    userConversations := fun u => if u = userId then none else st.userConversations u
    currentUserSchedule := fun u => if u = userId then none else st.currentUserSchedule u }

/-- `endConversationSession`: deletes the conversation context, the recording
session and the audio buffer — but not the schedule entry. -/
def endConversationSession (st : SessionStore) (userId : String) : SessionStore :=
  { st with
    userConversations := fun u => if u = userId then none else st.userConversations u
    userRecordingSessions := fun u => if u = userId then none else st.userRecordingSessions u
    userAudioBuffers := fun u => if u = userId then none else st.userAudioBuffers u }

/-! ## Transcription retry loop (`transcribeAudio`) -/

/-- Outcome of one call to the OpenAI transcription endpoint. -/
inductive ApiResponse where
  | success (text : String)
  | rateLimited
  | failure (message : String)
deriving DecidableEq, Repr

/-- Observable outcome of `transcribeAudio`. -/
inductive TranscribeOutcome where
  | transcribed (text : String)
  | fatalRateLimit
  | propagatedError (message : String)
deriving DecidableEq, Repr

/-- The retry loop of `transcribeAudio`: `responses n` is the service's
behaviour on the `n`-th call.  Returns the outcome, the number of calls made,
and the list of backoff delays slept (`2^attempts * 1000` ms).  An empty
transcription text raises `No transcription text found`, which the `catch`
re-throws as a non-rate-limit error. -/
def transcribeGo (responses : ℕ → ApiResponse) (attempts : ℕ) :
    ℕ → TranscribeOutcome × ℕ × List ℕ
  | 0 => (.fatalRateLimit, 0, [])
  | fuel + 1 =>
    match responses attempts with
    | .success t =>
      if t = "" then (.propagatedError "No transcription text found", 1, [])
      else (.transcribed t, 1, [])
    | .rateLimited =>
      let delay := 2 ^ (attempts + 1) * 1000
      let rest := transcribeGo responses (attempts + 1) fuel
      (rest.1, rest.2.1 + 1, delay :: rest.2.2)
    | .failure m => (.propagatedError m, 1, [])

/-- `transcribeAudio` with `maxAttempts = 2`. -/
def transcribeAudio (responses : ℕ → ApiResponse) : TranscribeOutcome × ℕ × List ℕ :=
  transcribeGo responses 0 2

/-! ### Branch lemmas for `getMeetingTimesByVoice` -/

theorem getMeetingTimesByVoice_no_schedule (oracle : String → String)
    (extractScheduleData : String → Option String) (transcript : String)
    (ctx : Option ConversationContext) (userId : Option String)
    (store : String → Option String)
    (h : scheduleLookup userId store = "") :
    getMeetingTimesByVoice oracle extractScheduleData transcript ctx userId store =
      [SCHEDULE_REQUIRED_LINE1, SCHEDULE_REQUIRED_LINE2] := by
  unfold getMeetingTimesByVoice
  simp [h]

theorem getMeetingTimesByVoice_summary (oracle : String → String)
    (extractScheduleData : String → Option String) (transcript : String)
    (c : ConversationContext) (userId : Option String) (store : String → Option String)
    (hsd : scheduleLookup userId store ≠ "")
    (hlen : 3 ≤ (splitOnChar c.transcript '\n').length)
    (hmt : c.meetingTimes ≠ []) :
    getMeetingTimesByVoice oracle extractScheduleData transcript (some c) userId store =
      splitLines (oracle (promptSummarySched transcript (scheduleLookup userId store)
        (String.intercalate ", " c.meetingTimes) ((splitOnChar c.transcript '\n').length))) := by
  unfold getMeetingTimesByVoice
  have hmt' : c.meetingTimes.length ≠ 0 := by
    intro h; exact hmt (List.length_eq_zero.mp h)
  simp [hsd, hlen, hmt']

/-! ## Claim C10 -/

/-- Claim C10 (confirmed): `getMeetingTimesByVoice` never depends on the
`[SCHEDULE DATA]:` extraction from the conversation transcript: the function
computes the same result whatever the extraction returns (it equals the
variant with the fallback removed), because the only path on which the
fallback would fire — empty schedule data — already returned the two
`SCHEDULE_REQUIRED` lines. -/
theorem c10_fallback_unreachable (oracle : String → String)
    (extractScheduleData : String → Option String) (transcript : String)
    (ctx : Option ConversationContext) (userId : Option String)
    (store : String → Option String) :
    getMeetingTimesByVoice oracle extractScheduleData transcript ctx userId store =
      getMeetingTimesByVoiceNoFallback oracle transcript ctx userId store
    ∧ (scheduleLookup userId store = "" →
        getMeetingTimesByVoice oracle extractScheduleData transcript ctx userId store =
          [SCHEDULE_REQUIRED_LINE1, SCHEDULE_REQUIRED_LINE2]) := by
  constructor
  · unfold getMeetingTimesByVoice getMeetingTimesByVoiceNoFallback
    by_cases h : scheduleLookup userId store = ""
    · simp [h]
    · cases ctx <;> simp [h]
  · exact getMeetingTimesByVoice_no_schedule oracle extractScheduleData transcript ctx
      userId store

theorem c10_fallback_unreachable_witness :
    getMeetingTimesByVoice (fun _ => "") (fun _ => some "Available: Mon") "hi" none none
        (fun _ => none) =
      [SCHEDULE_REQUIRED_LINE1, SCHEDULE_REQUIRED_LINE2] :=
  (c10_fallback_unreachable (fun _ => "") (fun _ => some "Available: Mon") "hi" none none
    (fun _ => none)).2 rfl

/-! ## Claim C4 -/

/-- A store with no entries at all. -/
def emptyStore : SessionStore :=
  ⟨fun _ => none, fun _ => none, fun _ => none, fun _ => none⟩

/-- A store where user `"u"` has a conversation (three transcript lines, one
proposed time) and schedule data `"S"`. -/
def sampleStore : SessionStore :=
  ⟨fun u => if u = "u" then some ⟨"a\nb\nc", ["t1"]⟩ else none,
   fun u => if u = "u" then some "S" else none,
   fun u => if u = "u" then some ⟨0, true, 0⟩ else none,
   fun _ => none⟩

/-- Claim C4 (amended): with no stored schedule data, both entry points
return exactly the two fixed `SCHEDULE_REQUIRED` lines; the voice entry
point leaves the stored `ConversationContext` untouched, but the text entry
point updates it unconditionally — appending the `[Text]:`-tagged message to
the transcript and the two reply lines to `meetingTimes` — so the two entry
points do NOT converge on one conversation state. -/
theorem c4_no_schedule_amended (oracle : String → String)
    (extractScheduleData : String → Option String)
    (st : SessionStore) (userId transcript message : String)
    (hsched : scheduleLookup (some userId) st.currentUserSchedule = "") :
    processAndTranscribe oracle extractScheduleData st userId transcript =
      (st, [SCHEDULE_REQUIRED_LINE1, SCHEDULE_REQUIRED_LINE2])
    ∧ (handleTextMessage oracle extractScheduleData st userId message).2 =
        [SCHEDULE_REQUIRED_LINE1, SCHEDULE_REQUIRED_LINE2]
    ∧ (handleTextMessage oracle extractScheduleData st userId message).1.userConversations
        userId =
        some ⟨((st.userConversations userId).getD ⟨"", []⟩).transcript
                ++ "\n[Text]: " ++ message,
              ((st.userConversations userId).getD ⟨"", []⟩).meetingTimes
                ++ [SCHEDULE_REQUIRED_LINE1, SCHEDULE_REQUIRED_LINE2]⟩ := by
  have hreq : isScheduleRequired [SCHEDULE_REQUIRED_LINE1, SCHEDULE_REQUIRED_LINE2] = true := by
    unfold isScheduleRequired SCHEDULE_REQUIRED_LINE1
    decide
  refine ⟨?_, ?_, ?_⟩
  · simp only [processAndTranscribe]
    rw [getMeetingTimesByVoice_no_schedule _ _ _ _ _ _ hsched, hreq]
    simp
  · simp only [handleTextMessage]
    rw [getMeetingTimesByVoice_no_schedule _ _ _ _ _ _ hsched]
  · simp only [handleTextMessage]
    rw [getMeetingTimesByVoice_no_schedule _ _ _ _ _ _ hsched]
    simp

theorem c4_no_schedule_amended_witness :
    processAndTranscribe (fun _ => "") (fun _ => none) emptyStore "u" "hello" =
      (emptyStore, [SCHEDULE_REQUIRED_LINE1, SCHEDULE_REQUIRED_LINE2]) :=
  (c4_no_schedule_amended (fun _ => "") (fun _ => none) emptyStore "u" "hello" "hi"
    (by decide)).1

/-- Claim C4 (counterexample to the original wording): on the text entry
point with no stored schedule, the user's `ConversationContext` is NOT
identical before and after the call — it goes from absent to
`⟨"\n[Text]: hi", the two SCHEDULE_REQUIRED lines⟩`. -/
theorem c4_counterexample :
    (handleTextMessage (fun _ => "") (fun _ => none) emptyStore "u" "hi").1.userConversations "u"
      ≠ emptyStore.userConversations "u" := by
  have hval : (handleTextMessage (fun _ => "") (fun _ => none) emptyStore "u" "hi").1.userConversations "u"
      = some ⟨"\n[Text]: hi", [SCHEDULE_REQUIRED_LINE1, SCHEDULE_REQUIRED_LINE2]⟩ := by
    simp only [handleTextMessage]
    rw [getMeetingTimesByVoice_no_schedule _ _ _ _ _ _ (by decide)]
    rfl
  rw [hval]
  simp [emptyStore]

/-! ## Claim C5 -/

/-- Claim C5 (amended): when the stored context has at least 3 transcript
lines and a prior proposed time (and schedule data is present), the voice
path builds the final-summary prompt — which contains the new transcript,
the schedule data and the prior suggestions — and appends the new transcript
line to the context; but contrary to the original claim it ALSO appends
every line of the summary reply to the context's `proposedTimes`
(`meetingTimes: [...existing, ...meetingTimes]` runs on every
non-`SCHEDULE_REQUIRED` reply). -/
theorem c5_summary_appends_times_amended
    (oracle : String → String) (extractScheduleData : String → Option String)
    (st : SessionStore) (userId transcript : String) (c : ConversationContext) (sd : String)
    (hctx : st.userConversations userId = some c)
    (hsd : st.currentUserSchedule userId = some sd)
    (hsdne : sd ≠ "") (huid : userId ≠ "")
    (hlen : 3 ≤ (splitOnChar c.transcript '\n').length)
    (hmt : c.meetingTimes ≠ [])
    (hnr : isScheduleRequired (splitLines (oracle (promptSummarySched transcript sd
      (String.intercalate ", " c.meetingTimes)
      ((splitOnChar c.transcript '\n').length)))) = false) :
    (processAndTranscribe oracle extractScheduleData st userId transcript).2 =
      splitLines (oracle (promptSummarySched transcript sd
        (String.intercalate ", " c.meetingTimes) ((splitOnChar c.transcript '\n').length)))
    ∧ (processAndTranscribe oracle extractScheduleData st userId
        transcript).1.userConversations userId =
      some ⟨c.transcript ++ "\n" ++ transcript,
            c.meetingTimes ++ splitLines (oracle (promptSummarySched transcript sd
              (String.intercalate ", " c.meetingTimes)
              ((splitOnChar c.transcript '\n').length)))⟩
    ∧ ∃ p1 p2 p3 p4 : String,
        promptSummarySched transcript sd (String.intercalate ", " c.meetingTimes)
          ((splitOnChar c.transcript '\n').length) =
          p1 ++ transcript ++ p2 ++ sd ++ p3 ++ String.intercalate ", " c.meetingTimes ++ p4 := by
  have hsl : scheduleLookup (some userId) st.currentUserSchedule = sd := by
    unfold scheduleLookup
    simp [huid, hsd]
  have hg : getMeetingTimesByVoice oracle extractScheduleData transcript (some c)
      (some userId) st.currentUserSchedule =
      splitLines (oracle (promptSummarySched transcript sd
        (String.intercalate ", " c.meetingTimes) ((splitOnChar c.transcript '\n').length))) := by
    rw [getMeetingTimesByVoice_summary oracle extractScheduleData transcript c (some userId)
      st.currentUserSchedule (by rw [hsl]; exact hsdne) hlen hmt, hsl]
  have htne : c.transcript ≠ "" := by
    intro he
    rw [he] at hlen
    have h1 : (splitOnChar "" '\n').length = 1 := rfl
    omega
  refine ⟨?_, ?_, ?_⟩
  · simp only [processAndTranscribe, hctx, Option.getD_some]
    rw [hg]
    simp [hnr]
  · simp only [processAndTranscribe, hctx, Option.getD_some]
    rw [hg]
    simp [hnr, htne]
  · exact ⟨"You are a smart meeting scheduler with access to the user\x27s schedule.\nGiven transcript: ",
      "\nSchedule data: ", "\nPrevious meeting suggestions: ",
      "\nConversation length: " ++ toString ((splitOnChar c.transcript '\n').length)
        ++ "\nTimezone: " ++ timezone
        ++ "\n\nThe user has provided enough information. Provide a final summary of the meeting details and confirm the scheduling. Include the confirmed meeting time, participants, and any other relevant details.",
      by simp [promptSummarySched, String.append_assoc]⟩

theorem c5_summary_appends_times_amended_witness :
    (processAndTranscribe (fun _ => "Summary") (fun _ => none) sampleStore "u" "ok").2 =
      splitLines "Summary"
    ∧ ∃ p1 p2 p3 p4 : String,
        promptSummarySched "ok" "S" (String.intercalate ", " ["t1"])
          ((splitOnChar "a\nb\nc" '\n').length) =
          p1 ++ "ok" ++ p2 ++ "S" ++ p3 ++ String.intercalate ", " ["t1"] ++ p4 := by
  have h := c5_summary_appends_times_amended (fun _ => "Summary") (fun _ => none)
    sampleStore "u" "ok" ⟨"a\nb\nc", ["t1"]⟩ "S" rfl rfl (by decide) (by decide)
    (by decide) (by decide) (by decide)
  exact ⟨h.1, h.2.2⟩

/-- Claim C5 (counterexample to the original wording): with a three-line
transcript, one prior proposed time and schedule data `"S"`, a summary reply
`"Summary"` IS appended to the stored `proposedTimes`: the context's
`meetingTimes` goes from `["t1"]` to `["t1", "Summary"]`. -/
theorem c5_counterexample :
    (processAndTranscribe (fun _ => "Summary") (fun _ => none) sampleStore "u"
        "ok").1.userConversations "u" =
      some ⟨"a\nb\nc\nok", ["t1", "Summary"]⟩
    ∧ (["t1", "Summary"] : List String) ≠ ["t1"] := by
  constructor
  · rfl
  · decide

/-! ## Claim C6 -/

/-- Claim C6 (amended): the explicit reset (`clearConversationContext`)
deletes the conversation context and the schedule entry together, but
session end (`endConversationSession`) deletes the conversation context,
recording session and audio buffer while leaving the user's
`ScheduleAvailability` untouched — so the two are NOT always cleared
together. -/
theorem c6_cleared_together_amended (st : SessionStore) (u : String) :
    ((clearConversationContext st u).userConversations u = none ∧
     (clearConversationContext st u).currentUserSchedule u = none)
    ∧ ((endConversationSession st u).userConversations u = none ∧
       (endConversationSession st u).userRecordingSessions u = none ∧
       (endConversationSession st u).userAudioBuffers u = none ∧
       (endConversationSession st u).currentUserSchedule u = st.currentUserSchedule u) := by
  unfold clearConversationContext endConversationSession
  simp

/-- Claim C6 (counterexample to the original wording): after
`endConversationSession` the conversation context for `"u"` is gone while
the schedule entry `"S"` survives — a reachable state where one of the two
is deleted and the other remains. -/
theorem c6_counterexample :
    (endConversationSession sampleStore "u").userConversations "u" = none
    ∧ (endConversationSession sampleStore "u").currentUserSchedule "u" = some "S" :=
  ⟨rfl, rfl⟩

/-! ## Claim C7 -/

/-- Claim C7 (confirmed): `transcribeAudio` calls the transcription service
at most 2 times; two rate-limited calls sleep the exponentially doubling
backoff delays 2 s then 4 s and end in the fatal rate-limit error with no
further calls; a non-rate-limit failure on the first call propagates
immediately after exactly one call and no backoff; a rate limit followed by
a non-rate-limit failure propagates after the single 2 s backoff. -/
theorem c7_transcribe_retry (responses : ℕ → ApiResponse) :
    (transcribeAudio responses).2.1 ≤ 2
    ∧ (responses 0 = .rateLimited → responses 1 = .rateLimited →
        transcribeAudio responses = (.fatalRateLimit, 2, [2000, 4000]))
    ∧ (∀ m, responses 0 = .failure m →
        transcribeAudio responses = (.propagatedError m, 1, []))
    ∧ (∀ m, responses 0 = .rateLimited → responses 1 = .failure m →
        transcribeAudio responses = (.propagatedError m, 2, [2000])) := by
  refine ⟨?_, ?_, ?_, ?_⟩
  · unfold transcribeAudio
    rcases h0 : responses 0 with t0 | _ | m0
    · simp only [transcribeGo, h0]
      split <;> simp
    · simp only [transcribeGo, h0]
      rcases h1 : responses 1 with t1 | _ | m1
      · simp only [transcribeGo, h1]
        split <;> simp
      · simp only [transcribeGo, h1]
        simp
      · simp only [transcribeGo, h1]
        simp
    · simp only [transcribeGo, h0]
      simp
  · intro h0 h1
    unfold transcribeAudio
    simp only [transcribeGo, h0, h1]
    norm_num
  · intro m h0
    unfold transcribeAudio
    simp only [transcribeGo, h0]
  · intro m h0 h1
    unfold transcribeAudio
    simp only [transcribeGo, h0, h1]
    norm_num

theorem c7_transcribe_retry_witness :
    transcribeAudio (fun _ => .rateLimited) = (.fatalRateLimit, 2, [2000, 4000]) :=
  (c7_transcribe_retry (fun _ => .rateLimited)).2.1 rfl rfl

end SchedulerBot
